import Mathlib

/-!
Verification development for QuEST_common.c (hardware-agnostic core of the
QuEST quantum simulator).  The C `REAL` type is embedded as `ℝ` (the spec
states the rotation/validator arithmetic exactly, in real arithmetic);
machine unsigned arithmetic in the string hash is embedded as `ℕ` with
explicit reduction modulo `2 ^ 64`; the fatal assertion path is embedded as
a process-outcome value recording the exit status and the printed lines.
-/

namespace QuEST

/-- A QuEST complex number: two `REAL` components, embedded over `ℝ`.
Mirrors the `Complex` struct used throughout QuEST_common.c. -/
structure Complex where
  real : ℝ
  imag : ℝ

/-- A rotation-axis vector with three `REAL` components, as in QuEST's
`Vector` struct. -/
structure Vector where
  x : ℝ
  y : ℝ
  z : ℝ

/-- A 2x2 complex matrix with entries named as in QuEST's `ComplexMatrix2`. -/
structure ComplexMatrix2 where
  r0c0 : Complex
  r0c1 : Complex
  r1c0 : Complex
  r1c1 : Complex

/-- Modelled from the spec: `REAL_EPS` is defined in QuEST_precision.h, which
is not part of src/; the spec describes it only as "a fixed small tolerance
(epsilon)".  We use the double-precision default `1e-13`.  Every theorem
below that depends on its value needs only that it is nonnegative and small
(well below 1). -/
noncomputable def REAL_EPS : ℝ := 1e-13

/-- Embedding of `validateUnitComplex` (QuEST_common.c line 100):
`absReal(1 - sqrt(alpha.real^2 + alpha.imag^2)) < REAL_EPS`. -/
noncomputable def validateUnitComplex (alpha : Complex) : Bool :=
  if |1 - Real.sqrt (alpha.real * alpha.real + alpha.imag * alpha.imag)| < REAL_EPS
  then true else false

/-- Embedding of `validateAlphaBeta` (QuEST_common.c lines 104-110): returns 0
when the absolute deviation of the squared-magnitude sum from 1 exceeds
`REAL_EPS`, else 1. -/
noncomputable def validateAlphaBeta (alpha beta : Complex) : Bool :=
  if |alpha.real * alpha.real + alpha.imag * alpha.imag
      + beta.real * beta.real + beta.imag * beta.imag - 1| > REAL_EPS
  then false else true

/-- Embedding of `validateMatrixIsUnitary` (QuEST_common.c lines 117-136):
four sequential early-return checks (column-0 norm, column-1 norm, the real
cross terms, the imaginary cross terms), returning 1 only when none of the
four deviations exceeds `REAL_EPS`. -/
noncomputable def validateMatrixIsUnitary (u : ComplexMatrix2) : Bool :=
  if |u.r0c0.real * u.r0c0.real + u.r0c0.imag * u.r0c0.imag
      + u.r1c0.real * u.r1c0.real + u.r1c0.imag * u.r1c0.imag - 1| > REAL_EPS
  then false
  else if |u.r0c1.real * u.r0c1.real + u.r0c1.imag * u.r0c1.imag
      + u.r1c1.real * u.r1c1.real + u.r1c1.imag * u.r1c1.imag - 1| > REAL_EPS
  then false
  else if |u.r0c0.real * u.r0c1.real + u.r0c0.imag * u.r0c1.imag
      + u.r1c0.real * u.r1c1.real + u.r1c0.imag * u.r1c1.imag| > REAL_EPS
  then false
  else if |u.r0c1.real * u.r0c0.imag - u.r0c0.real * u.r0c1.imag
      + u.r1c1.real * u.r1c0.imag - u.r1c0.real * u.r1c1.imag| > REAL_EPS
  then false
  else true

/-- Embedding of `getAlphaBetaFromRotation` (QuEST_common.c lines 241-250):
computes the axis magnitude with `sqrt(pow(x,2)+pow(y,2)+pow(z,2))`, divides
each component by it, and fills in the half-angle alpha/beta pair.  The two
out-parameters are returned as a pair `(alpha, beta)`. -/
noncomputable def getAlphaBetaFromRotation (angle : ℝ) (axis : Vector) :
    Complex × Complex :=
  let mag := Real.sqrt (axis.x ^ 2 + axis.y ^ 2 + axis.z ^ 2)
  let unitAxis : Vector := ⟨axis.x / mag, axis.y / mag, axis.z / mag⟩
  (⟨Real.cos (angle / 2), -(Real.sin (angle / 2) * unitAxis.z)⟩,
   ⟨Real.sin (angle / 2) * unitAxis.y, -(Real.sin (angle / 2) * unitAxis.x)⟩)

/-- Embedding of the parameter computation of `pure_rotateAroundAxisConj`
(QuEST_common.c lines 259-266): the same alpha/beta pair as
`getAlphaBetaFromRotation`, with the imaginary component of each multiplied
by -1 before use. -/
noncomputable def getAlphaBetaFromRotationConj (angle : ℝ) (axis : Vector) :
    Complex × Complex :=
  let p := getAlphaBetaFromRotation angle axis
  (⟨p.1.real, -p.1.imag⟩, ⟨p.2.real, -p.2.imag⟩)

/-- Embedding of `getConjugateScalar` (QuEST_common.c): negates the imaginary
part. -/
def getConjugateScalar (scalar : Complex) : Complex :=
  ⟨scalar.real, -scalar.imag⟩

/-- Embedding of `getConjugateMatrix` (QuEST_common.c): elementwise scalar
conjugation (no transpose). -/
def getConjugateMatrix (matrix : ComplexMatrix2) : ComplexMatrix2 :=
  ⟨getConjugateScalar matrix.r0c0, getConjugateScalar matrix.r0c1,
   getConjugateScalar matrix.r1c0, getConjugateScalar matrix.r1c1⟩

/-- Complex multiplication, used to interpret alpha/beta pairs and 2x2
matrices as composable unitaries. -/
def cmul (a b : Complex) : Complex :=
  ⟨a.real * b.real - a.imag * b.imag, a.real * b.imag + a.imag * b.real⟩

/-- Complex addition. -/
def cadd (a b : Complex) : Complex :=
  ⟨a.real + b.real, a.imag + b.imag⟩

/-- 2x2 complex matrix product. -/
def matMul (m n : ComplexMatrix2) : ComplexMatrix2 :=
  ⟨cadd (cmul m.r0c0 n.r0c0) (cmul m.r0c1 n.r1c0),
   cadd (cmul m.r0c0 n.r0c1) (cmul m.r0c1 n.r1c1),
   cadd (cmul m.r1c0 n.r0c0) (cmul m.r1c1 n.r1c0),
   cadd (cmul m.r1c0 n.r0c1) (cmul m.r1c1 n.r1c1)⟩

/-- The 2x2 identity matrix. -/
def identityMatrix2 : ComplexMatrix2 :=
  ⟨⟨1, 0⟩, ⟨0, 0⟩, ⟨0, 0⟩, ⟨1, 0⟩⟩

/-- Modelled from the spec: `pure_compactUnitary` is an external apply-kernel
(QuEST_ops_pure.h, not in src/); the spec calls `(alpha, beta)` "the
canonical parameterization of a single-qubit unitary equivalent to a
ComplexMatrix2".  That canonical compact unitary is
`[[alpha, -conj(beta)], [beta, conj(alpha)]]`, built here with the
repository's `getConjugateScalar`. -/
def matrixFromAlphaBeta (alpha beta : Complex) : ComplexMatrix2 :=
  ⟨alpha, ⟨-(getConjugateScalar beta).real, -(getConjugateScalar beta).imag⟩,
   beta, getConjugateScalar alpha⟩

/-- A matrix equals the identity within epsilon: every entry of the
difference from `identityMatrix2` has both components within `REAL_EPS` of
0.  This formalizes "reconstruct the identity matrix within epsilon". -/
noncomputable def approxIdentity (m : ComplexMatrix2) : Prop :=
  |m.r0c0.real - 1| ≤ REAL_EPS ∧ |m.r0c0.imag| ≤ REAL_EPS ∧
  |m.r0c1.real| ≤ REAL_EPS ∧ |m.r0c1.imag| ≤ REAL_EPS ∧
  |m.r1c0.real| ≤ REAL_EPS ∧ |m.r1c0.imag| ≤ REAL_EPS ∧
  |m.r1c1.real - 1| ≤ REAL_EPS ∧ |m.r1c1.imag| ≤ REAL_EPS

/-- The closed error catalog `errorCodes` of QuEST_common.c (17 entries,
index 0 = success). -/
def errorCodes : List String :=
  ["Success",
   "Invalid target qubit. Note qubits are zero indexed.",
   "Invalid control qubit. Note qubits are zero indexed.",
   "Control qubit cannot equal target qubit.",
   "Invalid number of control qubits",
   "Invalid unitary matrix.",
   "Invalid rotation arguments.",
   "Invalid system size. Cannot print output for systems greater than 5 qubits.",
   "Can\x27t collapse to state with zero probability.",
   "Invalid number of qubits.",
   "Invalid measurement outcome -- must be either 0 or 1.",
   "Could not open file.",
   "Second argument must be a pure state, not a density matrix.",
   "Dimensions of the qubit registers do not match.",
   "This operation is only defined for density matrices.",
   "This operation is only defined for two pure states.",
   "An non-unitary internal operation (phaseShift) occured."]

/-- Outcome of a call on the fatal-assertion path: either a normal return
(with the lines it printed) or process termination via `exit` with the given
status (with the lines printed before exiting).  `exited` is terminal: no
statement after the call executes. -/
inductive ProcOutcome where
  | normalReturn (output : List String)
  | exited (status : ℕ) (output : List String)
deriving DecidableEq

/-- Embedding of `exitWithError` (QuEST_common.c lines 46-52): prints the
three-line bordered banner and `exiting..`, then calls `exit(errorCode)`. -/
def exitWithError (errorCode : ℕ) (func : String) : ProcOutcome :=
  .exited errorCode
    ["!!!",
     "QuEST Error in function " ++ func ++ ": " ++ errorCodes.getD errorCode "",
     "!!!",
     "exiting.."]

/-- Embedding of `QuESTAssert` (QuEST_common.c lines 54-56):
`if (!isValid) exitWithError(errorCode, func);`.  The C `isValid` is an
`int`; `!isValid` holds exactly when it is zero. -/
def QuESTAssert (isValid : ℤ) (errorCode : ℕ) (func : String) : ProcOutcome :=
  if isValid = 0 then exitWithError errorCode func else .normalReturn []

/-- One iteration of the `hashString` loop body
`hash = ((hash << 5) + hash) + c`, in C `unsigned long` arithmetic: the
shift and each addition reduce modulo `2 ^ 64`. -/
def hashStep (hash c : ℕ) : ℕ :=
  ((hash * 2 ^ 5 % 2 ^ 64 + hash) % 2 ^ 64 + c) % 2 ^ 64

/-- The `while ((c = *str++))` loop of `hashString`: consumes bytes until
the terminating zero (or the end of the modelled byte list). -/
def hashStringAux (hash : ℕ) : List ℕ → ℕ
  | [] => hash
  | c :: rest => if c = 0 then hash else hashStringAux (hashStep hash c) rest

/-- Embedding of `hashString` (QuEST_common.c lines 58-66): DJB2 rolling
hash seeded at 5381 over the null-terminated byte sequence, modelled as a
list of byte values. -/
def hashString (str : List ℕ) : ℕ := hashStringAux 5381 str

/-- The register metadata and local amplitude storage of QuEST's
`QubitRegister` (declared in QuEST.h, fields as described by the spec's
DistributedStateVector). -/
structure QubitRegister where
  numQubits : ℕ
  numAmpsPerChunk : ℕ
  numChunks : ℕ
  chunkId : ℕ
  stateVecReal : List ℝ
  stateVecImag : List ℝ

/-- Embedding of `pure_getNumAmps` (QuEST_common.c lines 148-150):
`qureg.numAmpsPerChunk * qureg.numChunks`. -/
def pure_getNumAmps (qureg : QubitRegister) : ℕ :=
  qureg.numAmpsPerChunk * qureg.numChunks

/-- Embedding of `reportQubitRegisterParams` (QuEST_common.c lines 170-179):
computes `numAmps = 1 << numQubits` and `numAmpsPerRank = numAmps /
numChunks`, and prints the report lines only when `chunkId == 0`.  The C
function takes the register by value and returns void; the embedding
returns the (unchanged) register together with the printed lines. -/
def reportQubitRegisterParams (qureg : QubitRegister) :
    QubitRegister × List String :=
  let numAmps := 2 ^ qureg.numQubits
  let numAmpsPerRank := numAmps / qureg.numChunks
  if qureg.chunkId = 0 then
    (qureg,
     ["QUBITS:",
      "Number of qubits is " ++ toString qureg.numQubits ++ ".",
      "Number of amps is " ++ toString numAmps ++ ".",
      "Number of amps per rank is " ++ toString numAmpsPerRank ++ "."])
  else (qureg, [])

/-- The 2x2 Pauli X matrix, a test fixture from the spec. -/
def pauliX : ComplexMatrix2 := ⟨⟨0, 0⟩, ⟨1, 0⟩, ⟨1, 0⟩, ⟨0, 0⟩⟩

/-- The 2x2 Pauli Y matrix, a test fixture from the spec. -/
def pauliY : ComplexMatrix2 := ⟨⟨0, 0⟩, ⟨0, -1⟩, ⟨0, 1⟩, ⟨0, 0⟩⟩

/-- The 2x2 Pauli Z matrix, a test fixture from the spec. -/
def pauliZ : ComplexMatrix2 := ⟨⟨1, 0⟩, ⟨0, 0⟩, ⟨0, 0⟩, ⟨-1, 0⟩⟩

/-- Scales column 0 of a 2x2 matrix by 2 (both components of both column
entries), a test fixture from the spec. -/
def scaleCol0 (m : ComplexMatrix2) : ComplexMatrix2 :=
  ⟨⟨2 * m.r0c0.real, 2 * m.r0c0.imag⟩, m.r0c1,
   ⟨2 * m.r1c0.real, 2 * m.r1c0.imag⟩, m.r1c1⟩

/-- Scales column 1 of a 2x2 matrix by 2, a test fixture from the spec. -/
def scaleCol1 (m : ComplexMatrix2) : ComplexMatrix2 :=
  ⟨m.r0c0, ⟨2 * m.r0c1.real, 2 * m.r0c1.imag⟩,
   m.r1c0, ⟨2 * m.r1c1.real, 2 * m.r1c1.imag⟩⟩

/-- The axis magnitude `sqrt(pow(x,2)+pow(y,2)+pow(z,2))` computed by
`getAlphaBetaFromRotation`, as a named abbreviation for statements. -/
noncomputable def axisMag (axis : Vector) : ℝ :=
  Real.sqrt (axis.x ^ 2 + axis.y ^ 2 + axis.z ^ 2)

/-- Claim C5: for every error kind in the catalog and every function name,
`QuESTAssert` with a false (zero) `isValid` argument terminates the process
with exit status equal to the kind, after printing the three-line bordered
banner naming the function and the catalog message, followed by
`exiting..`; in particular kind 5 with function `someFunc` exits with
status 5. -/
theorem QuESTAssert_failure_spec (errorCode : ℕ) (func : String)
    (h : errorCode < errorCodes.length) :
    QuESTAssert 0 errorCode func =
      ProcOutcome.exited errorCode
        ["!!!",
         "QuEST Error in function " ++ func ++ ": " ++ errorCodes[errorCode],
         "!!!",
         "exiting.."] ∧
    errorCodes.length = 17 ∧
    QuESTAssert 0 5 "someFunc" =
      ProcOutcome.exited 5
        ["!!!", "QuEST Error in function someFunc: Invalid unitary matrix.",
         "!!!", "exiting.."] := by
  refine ⟨?_, rfl, by decide⟩
  simp [QuESTAssert, exitWithError, List.getD, List.getElem?_eq_getElem h]

theorem QuESTAssert_failure_spec_witness :
    QuESTAssert 0 5 "someFunc" =
      ProcOutcome.exited 5
        ["!!!", "QuEST Error in function someFunc: Invalid unitary matrix.",
         "!!!", "exiting.."] :=
  (QuESTAssert_failure_spec 5 "someFunc" (by decide)).2.2

/-- Claim C10: for every error kind and function name, `QuESTAssert` with a
nonzero (true) `isValid` argument returns normally, prints nothing, and
does not terminate the process. -/
theorem QuESTAssert_success_spec (isValid : ℤ) (errorCode : ℕ) (func : String)
    (h : isValid ≠ 0) :
    QuESTAssert isValid errorCode func = ProcOutcome.normalReturn [] := by
  simp [QuESTAssert, h]

theorem QuESTAssert_success_spec_witness :
    QuESTAssert 1 5 "someFunc" = ProcOutcome.normalReturn [] :=
  QuESTAssert_success_spec 1 5 "someFunc" (by decide)

/-- Claim C9: `hashString` is the DJB2 rolling hash: it returns 5381 on the
empty byte sequence, each nonzero byte `c` updates the running hash to
`hash * 33 + c` reduced modulo `2 ^ 64` (unsigned machine arithmetic), and
the function is a deterministic pure function of its input bytes. -/
theorem hashString_spec :
    hashString [] = 5381 ∧
    (∀ (hash c : ℕ) (rest : List ℕ), c ≠ 0 →
      hashStringAux hash (c :: rest) =
        hashStringAux ((hash * 33 + c) % 2 ^ 64) rest) ∧
    (∀ str : List ℕ, hashString str = hashString str) := by
  refine ⟨rfl, ?_, fun _ => rfl⟩
  intro hash c rest hc
  simp only [hashStringAux, if_neg hc, hashStep]
  congr 1
  norm_num
  omega

theorem hashString_spec_witness :
    hashStringAux 5381 [97] = (5381 * 33 + 97) % 2 ^ 64 :=
  (hashString_spec.2.1 5381 97 [] (by decide)).trans rfl

/-- Claim C7: `pure_getNumAmps` returns `numAmpsPerChunk * numChunks`;
under the partition invariant `numAmpsPerChunk * numChunks = 2 ^ numQubits`,
a register with 3 qubits and 1 chunk yields 8 amplitudes, and one with 3
qubits and 2 chunks must have `numAmpsPerChunk = 4`. -/
theorem pure_getNumAmps_spec (qureg : QubitRegister) :
    pure_getNumAmps qureg = qureg.numAmpsPerChunk * qureg.numChunks ∧
    (qureg.numAmpsPerChunk * qureg.numChunks = 2 ^ qureg.numQubits →
      (qureg.numQubits = 3 → qureg.numChunks = 1 →
        pure_getNumAmps qureg = 8) ∧
      (qureg.numQubits = 3 → qureg.numChunks = 2 →
        qureg.numAmpsPerChunk = 4)) := by
  refine ⟨rfl, fun hinv => ⟨?_, ?_⟩⟩ <;> intro h3 hc <;>
    rw [h3, hc] at hinv <;> norm_num at hinv
  · simp [pure_getNumAmps, hc, hinv]
  · omega

theorem pure_getNumAmps_spec_witness :
    pure_getNumAmps ⟨3, 8, 1, 0, [], []⟩ = 8 ∧
    (⟨3, 4, 2, 0, [], []⟩ : QubitRegister).numAmpsPerChunk = 4 :=
  ⟨((pure_getNumAmps_spec ⟨3, 8, 1, 0, [], []⟩).2 (by decide)).1 rfl rfl,
   ((pure_getNumAmps_spec ⟨3, 4, 2, 0, [], []⟩).2 (by decide)).2 rfl rfl⟩

/-- Claim C8: `reportQubitRegisterParams` leaves the register unchanged,
and prints the report lines -- number of qubits, number of amps
`2 ^ numQubits`, number of amps per rank `2 ^ numQubits / numChunks` --
exactly when `chunkId = 0`; for any other `chunkId` it produces no
output. -/
theorem reportQubitRegisterParams_spec (qureg : QubitRegister) :
    (reportQubitRegisterParams qureg).1 = qureg ∧
    (qureg.chunkId = 0 →
      (reportQubitRegisterParams qureg).2 =
        ["QUBITS:",
         "Number of qubits is " ++ toString qureg.numQubits ++ ".",
         "Number of amps is " ++ toString (2 ^ qureg.numQubits) ++ ".",
         "Number of amps per rank is " ++
           toString (2 ^ qureg.numQubits / qureg.numChunks) ++ "."]) ∧
    (qureg.chunkId ≠ 0 → (reportQubitRegisterParams qureg).2 = []) := by
  unfold reportQubitRegisterParams
  by_cases h : qureg.chunkId = 0 <;> simp [h]

theorem reportQubitRegisterParams_spec_witness :
    (reportQubitRegisterParams ⟨3, 8, 1, 0, [], []⟩).2 =
      ["QUBITS:", "Number of qubits is 3.", "Number of amps is 8.",
       "Number of amps per rank is 8."] ∧
    (reportQubitRegisterParams ⟨3, 4, 2, 1, [], []⟩).2 = [] :=
  ⟨((reportQubitRegisterParams_spec ⟨3, 8, 1, 0, [], []⟩).2.1 rfl).trans
     (by decide),
   (reportQubitRegisterParams_spec ⟨3, 4, 2, 1, [], []⟩).2.2 (by decide)⟩

/-- Claim C6 (amended): `validateAlphaBeta` returns true if and only if the
absolute deviation of `|alpha|^2 + |beta|^2` from 1 is at most `REAL_EPS`
(the code rejects only strict exceedance); it returns true for pairs whose
squared magnitudes sum to 1 exactly and false when the sum is perturbed
from 1 by more than epsilon. -/
theorem validateAlphaBeta_spec :
    (∀ alpha beta : Complex, validateAlphaBeta alpha beta = true ↔
      |alpha.real * alpha.real + alpha.imag * alpha.imag
        + beta.real * beta.real + beta.imag * beta.imag - 1| ≤ REAL_EPS) ∧
    validateAlphaBeta ⟨1, 0⟩ ⟨0, 0⟩ = true ∧
    validateAlphaBeta ⟨1, 0⟩ ⟨1, 0⟩ = false := by
  have key : ∀ alpha beta : Complex, validateAlphaBeta alpha beta = true ↔
      |alpha.real * alpha.real + alpha.imag * alpha.imag
        + beta.real * beta.real + beta.imag * beta.imag - 1| ≤ REAL_EPS := by
    intro a b
    unfold validateAlphaBeta
    split
    · rename_i hgt
      simpa using not_le.mpr hgt
    · rename_i hle
      simpa using not_lt.mp hle
  refine ⟨key, ?_, ?_⟩
  · refine (key _ _).mpr ?_
    norm_num [REAL_EPS]
  · rw [Bool.eq_false_iff]
    intro hc
    have h := (key _ _).mp hc
    rw [show (1 : ℝ) * 1 + 0 * 0 + 1 * 1 + 0 * 0 - 1 = 1 by ring] at h
    norm_num [REAL_EPS] at h

/-- Claim C6 counterexample: at the boundary where the squared-magnitude
sum deviates from 1 by exactly `REAL_EPS`, the code returns true although
the claimed strict inequality `|...| < epsilon` fails, so "true if and only
if `< epsilon`" is false as stated. -/
theorem validateAlphaBeta_strict_counterexample :
    validateAlphaBeta ⟨1, 0⟩ ⟨Real.sqrt REAL_EPS, 0⟩ = true ∧
    ¬(|(1 : ℝ) * 1 + 0 * 0
        + Real.sqrt REAL_EPS * Real.sqrt REAL_EPS + 0 * 0 - 1|
      < REAL_EPS) := by
  have heps : (0 : ℝ) ≤ REAL_EPS := by norm_num [REAL_EPS]
  have hs : Real.sqrt REAL_EPS * Real.sqrt REAL_EPS = REAL_EPS :=
    Real.mul_self_sqrt heps
  have habs : |(1 : ℝ) * 1 + 0 * 0
      + Real.sqrt REAL_EPS * Real.sqrt REAL_EPS + 0 * 0 - 1| = REAL_EPS := by
    rw [hs, show (1 : ℝ) * 1 + 0 * 0 + REAL_EPS + 0 * 0 - 1 = REAL_EPS by ring,
      abs_of_nonneg heps]
  have hcond : ¬(|(1 : ℝ) * 1 + 0 * 0
      + Real.sqrt REAL_EPS * Real.sqrt REAL_EPS + 0 * 0 - 1| > REAL_EPS) := by
    rw [habs]
    exact lt_irrefl _
  constructor
  · unfold validateAlphaBeta
    exact if_neg hcond
  · rw [habs]
    exact lt_irrefl REAL_EPS

/-- Claim C4: `validateMatrixIsUnitary` accepts exactly when all four
epsilon-bounded checks hold -- each column's squared norm within epsilon of
1, and the real and imaginary parts of the column-0/column-1 complex inner
product within epsilon of 0; consequently it accepts the identity and each
Pauli matrix, and rejects each of these with either column scaled by 2. -/
theorem validateMatrixIsUnitary_spec :
    (∀ u : ComplexMatrix2, validateMatrixIsUnitary u = true ↔
      (|u.r0c0.real ^ 2 + u.r0c0.imag ^ 2
          + u.r1c0.real ^ 2 + u.r1c0.imag ^ 2 - 1| ≤ REAL_EPS ∧
       |u.r0c1.real ^ 2 + u.r0c1.imag ^ 2
          + u.r1c1.real ^ 2 + u.r1c1.imag ^ 2 - 1| ≤ REAL_EPS ∧
       |u.r0c0.real * u.r0c1.real + u.r0c0.imag * u.r0c1.imag
          + u.r1c0.real * u.r1c1.real + u.r1c0.imag * u.r1c1.imag|
         ≤ REAL_EPS ∧
       |u.r0c0.real * u.r0c1.imag - u.r0c0.imag * u.r0c1.real
          + u.r1c0.real * u.r1c1.imag - u.r1c0.imag * u.r1c1.real|
         ≤ REAL_EPS)) ∧
    validateMatrixIsUnitary identityMatrix2 = true ∧
    validateMatrixIsUnitary pauliX = true ∧
    validateMatrixIsUnitary pauliY = true ∧
    validateMatrixIsUnitary pauliZ = true ∧
    validateMatrixIsUnitary (scaleCol0 identityMatrix2) = false ∧
    validateMatrixIsUnitary (scaleCol1 identityMatrix2) = false ∧
    validateMatrixIsUnitary (scaleCol0 pauliX) = false ∧
    validateMatrixIsUnitary (scaleCol1 pauliX) = false ∧
    validateMatrixIsUnitary (scaleCol0 pauliY) = false ∧
    validateMatrixIsUnitary (scaleCol1 pauliY) = false ∧
    validateMatrixIsUnitary (scaleCol0 pauliZ) = false ∧
    validateMatrixIsUnitary (scaleCol1 pauliZ) = false := by
  have key : ∀ u : ComplexMatrix2, validateMatrixIsUnitary u = true ↔
      (|u.r0c0.real ^ 2 + u.r0c0.imag ^ 2
          + u.r1c0.real ^ 2 + u.r1c0.imag ^ 2 - 1| ≤ REAL_EPS ∧
       |u.r0c1.real ^ 2 + u.r0c1.imag ^ 2
          + u.r1c1.real ^ 2 + u.r1c1.imag ^ 2 - 1| ≤ REAL_EPS ∧
       |u.r0c0.real * u.r0c1.real + u.r0c0.imag * u.r0c1.imag
          + u.r1c0.real * u.r1c1.real + u.r1c0.imag * u.r1c1.imag|
         ≤ REAL_EPS ∧
       |u.r0c0.real * u.r0c1.imag - u.r0c0.imag * u.r0c1.real
          + u.r1c0.real * u.r1c1.imag - u.r1c0.imag * u.r1c1.real|
         ≤ REAL_EPS) := by
    intro u
    unfold validateMatrixIsUnitary
    rw [show u.r0c0.real * u.r0c0.real + u.r0c0.imag * u.r0c0.imag
        + u.r1c0.real * u.r1c0.real + u.r1c0.imag * u.r1c0.imag - 1
        = u.r0c0.real ^ 2 + u.r0c0.imag ^ 2
          + u.r1c0.real ^ 2 + u.r1c0.imag ^ 2 - 1 by ring]
    rw [show u.r0c1.real * u.r0c1.real + u.r0c1.imag * u.r0c1.imag
        + u.r1c1.real * u.r1c1.real + u.r1c1.imag * u.r1c1.imag - 1
        = u.r0c1.real ^ 2 + u.r0c1.imag ^ 2
          + u.r1c1.real ^ 2 + u.r1c1.imag ^ 2 - 1 by ring]
    rw [show |u.r0c1.real * u.r0c0.imag - u.r0c0.real * u.r0c1.imag
        + u.r1c1.real * u.r1c0.imag - u.r1c0.real * u.r1c1.imag|
        = |u.r0c0.real * u.r0c1.imag - u.r0c0.imag * u.r0c1.real
          + u.r1c0.real * u.r1c1.imag - u.r1c0.imag * u.r1c1.real| by
      rw [show u.r0c1.real * u.r0c0.imag - u.r0c0.real * u.r0c1.imag
          + u.r1c1.real * u.r1c0.imag - u.r1c0.real * u.r1c1.imag
          = -(u.r0c0.real * u.r0c1.imag - u.r0c0.imag * u.r0c1.real
            + u.r1c0.real * u.r1c1.imag - u.r1c0.imag * u.r1c1.real) by ring]
      exact abs_neg _]
    split_ifs with h1 h2 h3 h4
    · simp [not_le.mpr h1]
    · simp [not_le.mpr h2]
    · simp [not_le.mpr h3]
    · simp [not_le.mpr h4]
    · simp [not_lt.mp h1, not_lt.mp h2, not_lt.mp h3, not_lt.mp h4]
  refine ⟨key, ?_, ?_, ?_, ?_, ?_, ?_, ?_, ?_, ?_, ?_, ?_, ?_⟩
  · exact (key _).mpr (by norm_num [identityMatrix2, REAL_EPS, abs_le])
  · exact (key _).mpr (by norm_num [pauliX, REAL_EPS, abs_le])
  · exact (key _).mpr (by norm_num [pauliY, REAL_EPS, abs_le])
  · exact (key _).mpr (by norm_num [pauliZ, REAL_EPS, abs_le])
  all_goals
    rw [Bool.eq_false_iff]
    intro hc
    have h := (key _).mp hc
    norm_num [scaleCol0, scaleCol1, identityMatrix2, pauliX, pauliY, pauliZ,
      REAL_EPS, abs_le] at h

/-- Claim C1: for every angle and axis of non-zero magnitude,
`getAlphaBetaFromRotation` normalizes the axis by dividing each component
by its magnitude (the normalized axis has unit squared norm) and returns
`alpha = (cos(angle/2), -sin(angle/2)*unitAxis.z)` and
`beta = (sin(angle/2)*unitAxis.y, -sin(angle/2)*unitAxis.x)`; for axis
`(0,0,1)` it yields `alpha = (cos(angle/2), -sin(angle/2))` and
`beta = (0,0)`. -/
theorem getAlphaBetaFromRotation_spec (angle : ℝ) (axis : Vector)
    (h : axisMag axis ≠ 0) :
    (axis.x / axisMag axis) ^ 2 + (axis.y / axisMag axis) ^ 2
      + (axis.z / axisMag axis) ^ 2 = 1 ∧
    getAlphaBetaFromRotation angle axis =
      (⟨Real.cos (angle / 2),
        -(Real.sin (angle / 2) * (axis.z / axisMag axis))⟩,
       ⟨Real.sin (angle / 2) * (axis.y / axisMag axis),
        -(Real.sin (angle / 2) * (axis.x / axisMag axis))⟩) ∧
    getAlphaBetaFromRotation angle ⟨0, 0, 1⟩ =
      (⟨Real.cos (angle / 2), -Real.sin (angle / 2)⟩, ⟨0, 0⟩) := by
  have hS : 0 < axis.x ^ 2 + axis.y ^ 2 + axis.z ^ 2 :=
    Real.sqrt_ne_zero'.mp (by simpa [axisMag] using h)
  have hsq : axisMag axis ^ 2 = axis.x ^ 2 + axis.y ^ 2 + axis.z ^ 2 := by
    simpa [axisMag] using Real.sq_sqrt hS.le
  refine ⟨?_, ?_, ?_⟩
  · rw [div_pow, div_pow, div_pow, div_add_div_same, div_add_div_same, hsq]
    exact div_self hS.ne'
  · simp only [getAlphaBetaFromRotation, axisMag]
  · have h1 : Real.sqrt ((0 : ℝ) ^ 2 + 0 ^ 2 + 1 ^ 2) = 1 := by
      norm_num
    simp [getAlphaBetaFromRotation, h1]

theorem getAlphaBetaFromRotation_spec_witness :
    getAlphaBetaFromRotation 0 ⟨0, 0, 1⟩ = (⟨1, 0⟩, ⟨0, 0⟩) := by
  have h := (getAlphaBetaFromRotation_spec 0 ⟨0, 0, 1⟩
    (by norm_num [axisMag])).2.2
  simpa using h

/-- Claim C3: for every angle and axis of non-zero magnitude, the
`(alpha, beta)` pair returned by `getAlphaBetaFromRotation` satisfies
`|alpha|^2 + |beta|^2 = 1` exactly, in exact real arithmetic. -/
theorem getAlphaBetaFromRotation_normalized (angle : ℝ) (axis : Vector)
    (h : axisMag axis ≠ 0) :
    (getAlphaBetaFromRotation angle axis).1.real ^ 2
      + (getAlphaBetaFromRotation angle axis).1.imag ^ 2
      + (getAlphaBetaFromRotation angle axis).2.real ^ 2
      + (getAlphaBetaFromRotation angle axis).2.imag ^ 2 = 1 := by
  have hS : 0 < axis.x ^ 2 + axis.y ^ 2 + axis.z ^ 2 :=
    Real.sqrt_ne_zero'.mp (by simpa [axisMag] using h)
  have hm : Real.sqrt (axis.x ^ 2 + axis.y ^ 2 + axis.z ^ 2) ≠ 0 := by
    simpa [axisMag] using h
  have hsq : Real.sqrt (axis.x ^ 2 + axis.y ^ 2 + axis.z ^ 2) ^ 2
      = axis.x ^ 2 + axis.y ^ 2 + axis.z ^ 2 := Real.sq_sqrt hS.le
  have hcs : Real.cos (angle / 2) ^ 2 + Real.sin (angle / 2) ^ 2 = 1 :=
    Real.cos_sq_add_sin_sq (angle / 2)
  simp only [getAlphaBetaFromRotation]
  field_simp
  nlinarith [hsq, hcs, hS]

theorem getAlphaBetaFromRotation_normalized_witness :
    (getAlphaBetaFromRotation 0 ⟨0, 0, 1⟩).1.real ^ 2
      + (getAlphaBetaFromRotation 0 ⟨0, 0, 1⟩).1.imag ^ 2
      + (getAlphaBetaFromRotation 0 ⟨0, 0, 1⟩).2.real ^ 2
      + (getAlphaBetaFromRotation 0 ⟨0, 0, 1⟩).2.imag ^ 2 = 1 :=
  getAlphaBetaFromRotation_normalized 0 ⟨0, 0, 1⟩ (by norm_num [axisMag])

/-- Claim C2 counterexample: at angle pi and axis (0,1,0), the unitary of
the conjugate-variant parameters composed with the unitary of the plain
parameters is -identity (its top-left entry is -1), not the identity within
epsilon, so the claimed round-trip law is false as stated. -/
theorem rotationConjRoundTrip_counterexample :
    ¬ approxIdentity
      (matMul
        (matrixFromAlphaBeta (getAlphaBetaFromRotationConj Real.pi ⟨0, 1, 0⟩).1
          (getAlphaBetaFromRotationConj Real.pi ⟨0, 1, 0⟩).2)
        (matrixFromAlphaBeta (getAlphaBetaFromRotation Real.pi ⟨0, 1, 0⟩).1
          (getAlphaBetaFromRotation Real.pi ⟨0, 1, 0⟩).2)) := by
  have h1 : Real.sqrt ((0 : ℝ) ^ 2 + 1 ^ 2 + 0 ^ 2) = 1 := by norm_num
  intro hI
  obtain ⟨hc, -⟩ := hI
  rw [show (matMul
      (matrixFromAlphaBeta (getAlphaBetaFromRotationConj Real.pi ⟨0, 1, 0⟩).1
        (getAlphaBetaFromRotationConj Real.pi ⟨0, 1, 0⟩).2)
      (matrixFromAlphaBeta (getAlphaBetaFromRotation Real.pi ⟨0, 1, 0⟩).1
        (getAlphaBetaFromRotation Real.pi ⟨0, 1, 0⟩).2)).r0c0.real = -1 by
    simp [matMul, matrixFromAlphaBeta, getAlphaBetaFromRotation,
      getAlphaBetaFromRotationConj, getConjugateScalar, cmul, cadd, h1]] at hc
  norm_num [REAL_EPS, abs_le] at hc

/-- Claim C2 (amended): for every angle and every axis of non-zero
magnitude, the conjugate variant's unitary is the elementwise complex
conjugate of the plain variant's unitary (not its Hermitian adjoint in
general); when the axis has zero y-component (so beta is purely imaginary
and the conjugate coincides with the adjoint), the two unitaries compose
to the exact 2x2 identity -- the round-trip law holds in that case. -/
theorem rotationConjRoundTrip_spec (angle : ℝ) (axis : Vector)
    (h : axisMag axis ≠ 0) :
    matrixFromAlphaBeta (getAlphaBetaFromRotationConj angle axis).1
        (getAlphaBetaFromRotationConj angle axis).2 =
      getConjugateMatrix
        (matrixFromAlphaBeta (getAlphaBetaFromRotation angle axis).1
          (getAlphaBetaFromRotation angle axis).2) ∧
    (axis.y = 0 →
      matMul
        (matrixFromAlphaBeta (getAlphaBetaFromRotationConj angle axis).1
          (getAlphaBetaFromRotationConj angle axis).2)
        (matrixFromAlphaBeta (getAlphaBetaFromRotation angle axis).1
          (getAlphaBetaFromRotation angle axis).2) = identityMatrix2) := by
  have hS : 0 < axis.x ^ 2 + axis.y ^ 2 + axis.z ^ 2 :=
    Real.sqrt_ne_zero'.mp (by simpa [axisMag] using h)
  have hm : Real.sqrt (axis.x ^ 2 + axis.y ^ 2 + axis.z ^ 2) ≠ 0 := by
    simpa [axisMag] using h
  have hsq : Real.sqrt (axis.x ^ 2 + axis.y ^ 2 + axis.z ^ 2) ^ 2
      = axis.x ^ 2 + axis.y ^ 2 + axis.z ^ 2 := Real.sq_sqrt hS.le
  have hcs : Real.cos (angle / 2) ^ 2 + Real.sin (angle / 2) ^ 2 = 1 :=
    Real.cos_sq_add_sin_sq (angle / 2)
  constructor
  · simp [matrixFromAlphaBeta, getAlphaBetaFromRotation,
      getAlphaBetaFromRotationConj, getConjugateMatrix, getConjugateScalar]
  · intro hy
    rw [hy] at hS hm hsq
    simp only [matMul, matrixFromAlphaBeta, getAlphaBetaFromRotation,
      getAlphaBetaFromRotationConj, getConjugateScalar, cmul, cadd,
      identityMatrix2, hy, ComplexMatrix2.mk.injEq, Complex.mk.injEq]
    generalize Real.sqrt (axis.x ^ 2 + 0 ^ 2 + axis.z ^ 2) = m at hm hsq
    refine ⟨⟨?_, ?_⟩, ⟨?_, ?_⟩, ⟨?_, ?_⟩, ⟨?_, ?_⟩⟩ <;> field_simp <;>
      first
        | ring1
        | linear_combination m ^ 2 * hcs - Real.sin (angle / 2) ^ 2 * hsq

theorem rotationConjRoundTrip_spec_witness :
    matMul
      (matrixFromAlphaBeta (getAlphaBetaFromRotationConj 0 ⟨0, 0, 1⟩).1
        (getAlphaBetaFromRotationConj 0 ⟨0, 0, 1⟩).2)
      (matrixFromAlphaBeta (getAlphaBetaFromRotation 0 ⟨0, 0, 1⟩).1
        (getAlphaBetaFromRotation 0 ⟨0, 0, 1⟩).2) = identityMatrix2 :=
  (rotationConjRoundTrip_spec 0 ⟨0, 0, 1⟩ (by norm_num [axisMag])).2 rfl

end QuEST
